import Mathlib

/-!
Shallow embedding of the management layer of the multichain gas station
contract (`src/impl_management.rs`), together with proofs of the spec's
claims about it.

Conventions of the embedding:
* NEAR `AccountId` and asset identifiers are `String`s; a foreign (EVM)
  address is a `Nat`; a public key is a `String`.
* Machine integers (`u32`, `u64`, `u128`, `U256`) are `Nat`s; every
  arithmetic step the Rust code guards (`checked_sub`, `U256` overflow
  panics) is guarded explicitly in the embedding.
* The persistent maps (`foreign_chains`, `collected_fees`,
  `pending_transaction_sequences`) are association lists whose key
  uniqueness is the store's invariant; lookups find the first matching key.
* A Rust `env::panic_str`/failed `require!` aborts the whole call and rolls
  back state; an operation is therefore `Except String` valued, and the
  caller-facing step function keeps the old state on `.error`.
-/

/-- Paymaster key descriptor (`PaymasterConfiguration` in the source). -/
structure PaymasterConfiguration where
  nonce : Nat
  key_path : String
deriving DecidableEq, Repr

/-- Per-chain configuration (`ChainConfiguration` in the source); the
paymaster pool is stored inline as the ordered list the `Vector` holds. -/
structure ChainConfiguration where
  next_paymaster : Nat
  oracle_asset_id : String
  transfer_gas : Nat
  fee_rate : Nat × Nat
  paymasters : List PaymasterConfiguration
deriving DecidableEq, Repr

/-- Opaque in-flight transaction state; this layer only stores and lists it. -/
structure PendingTransactionSequence where
  payload : Nat
deriving DecidableEq, Repr

/-- Opaque process-wide toggle set; this layer only stores and replaces it. -/
structure Flags where
  raw : Nat
deriving DecidableEq, Repr

/-- The contract state: the fields of `Contract` read or written by
`impl_management.rs`, plus the owner identity (from the `Owner` component)
and the contract's own account id (from `env::current_account_id`). -/
structure Contract where
  owner : String
  current_account_id : String
  expire_sequence_after_ns : Nat
  signer_contract_id : String
  signer_contract_public_key : Option String
  flags : Flags
  receiver_whitelist : List Nat
  sender_whitelist : List String
  foreign_chains : List (Nat × ChainConfiguration)
  collected_fees : List (String × Nat)
  pending_transaction_sequences : List (Nat × PendingTransactionSequence)
  oracle_local_asset_id : String
deriving DecidableEq, Repr

/-! ### Association-list map primitives (the near-sdk stores) -/

/-- First-match lookup in an association list. -/
def mapLookup {α β : Type} [DecidableEq α] : List (α × β) → α → Option β
  | [], _ => none
  | (k, v) :: rest, a => if k = a then some v else mapLookup rest a

/-- Upsert: replace the first binding of `k`, or append a new one. -/
def mapInsert {α β : Type} [DecidableEq α] : List (α × β) → α → β → List (α × β)
  | [], k, v => [(k, v)]
  | (k', v') :: rest, k, v =>
    if k' = k then (k, v) :: rest else (k', v') :: mapInsert rest k v

/-- Remove the first binding of `k`, if any. -/
def mapRemove {α β : Type} [DecidableEq α] : List (α × β) → α → List (α × β)
  | [], _ => []
  | (k', v') :: rest, k => if k' = k then rest else (k', v') :: mapRemove rest k

/-! ### Set primitives (the near-sdk whitelist stores) -/

/-- Set insertion: a no-op when the element is already a member. -/
def setInsert {α : Type} [DecidableEq α] (s : List α) (x : α) : List α :=
  if x ∈ s then s else s ++ [x]

/-- Set removal: drops the first occurrence, a no-op when absent. -/
def setRemove {α : Type} [DecidableEq α] : List α → α → List α
  | [], _ => []
  | y :: rest, x => if y = x then rest else y :: setRemove rest x

/-! ### Fee ledger -/

/-- The pending transfer a successful withdrawal triggers
(`asset_id.transfer(receiver, amount)` in the source). -/
structure Transfer where
  asset : String
  receiver : String
  amount : Nat
deriving DecidableEq, Repr

/-- `withdraw_collected_fees`: requires exactly 1 yoctoNEAR attached and the
owner as caller; looks up the asset's fee entry (panics when absent);
resolves a missing `amount` to the full balance; checked-subtracts; on
success stores the reduced balance back into the same entry and triggers
the transfer to `receiver_id` (defaulting to the owner). -/
def withdraw_collected_fees (c : Contract) (caller : String) (deposit : Nat)
    (asset_id : String) (amount : Option Nat) (receiver_id : Option String) :
    Except String (Contract × Transfer) :=
  if deposit ≠ 1 then .error "Requires attached deposit of exactly 1 yoctoNEAR"
  else if caller ≠ c.owner then .error "Owner only"
  else
    match mapLookup c.collected_fees asset_id with
    | none => .error "No fee entry for provided asset ID"
    | some fees =>
      let amt := amount.getD fees
      if amt ≤ fees then
        .ok ({ c with collected_fees := mapInsert c.collected_fees asset_id (fees - amt) },
             { asset := asset_id, receiver := receiver_id.getD c.owner, amount := amt })
      else .error "Not enough fees to withdraw"

/-- `get_collected_fees`: the full ledger listing. -/
def get_collected_fees (c : Contract) : List (String × Nat) :=
  c.collected_fees

/-! ### Signer key reconciliation -/

/-- `set_signer_contract_id`: owner-gated; when the id actually changes,
stores the new id and clears the cached public key. -/
def set_signer_contract_id (c : Contract) (caller : String) (account_id : String) :
    Except String Contract :=
  if caller ≠ c.owner then .error "Owner only"
  else if c.signer_contract_id ≠ account_id then
    .ok { c with signer_contract_id := account_id, signer_contract_public_key := none }
  else .ok c

/-- `refresh_signer_public_key`: owner-gated; only issues the asynchronous
`public_key()` request and registers the callback — it mutates nothing. -/
def refresh_signer_public_key (c : Contract) (caller : String) : Except String Contract :=
  if caller ≠ c.owner then .error "Owner only" else .ok c

/-- `refresh_signer_public_key_callback`: `#[private]`, so callable only by
the contract account itself; on a failed remote call it panics, on success
it unconditionally stores the returned key. -/
def refresh_signer_public_key_callback (c : Contract) (caller : String)
    (public_key : Except Unit String) : Except String Contract :=
  if caller ≠ c.current_account_id then .error "Method is private"
  else
    match public_key with
    | .error _ => .error "Failed to load signer public key from the signer contract"
    | .ok pk => .ok { c with signer_contract_public_key := some pk }

/-- Modelled from the spec: the elliptic-curve key-derivation collaborator
(`get_mpc_address` from `kdf`, outside this file's source) that derives a
foreign address from the cached public key, the contract's own identity and
the target account id. Deterministic and total; its exact value is
irrelevant to the claims, which only use that the cached key is consumed. -/
def get_mpc_address (pk : String) (contract_id : String) (account_id : String) :
    Option Nat :=
  some ((pk ++ "/" ++ contract_id ++ "/" ++ account_id).length)

/-- `get_foreign_address_for`: unwraps the cached signer public key (failing
when it is absent) and derives the foreign address for `account_id`. -/
def get_foreign_address_for (c : Contract) (account_id : String) : Option Nat :=
  match c.signer_contract_public_key with
  | none => none
  | some pk => get_mpc_address pk c.current_account_id account_id

/-! ### Flags and whitelists -/

/-- `set_flags`: owner-gated replacement of the whole toggle set. -/
def set_flags (c : Contract) (caller : String) (flags : Flags) : Except String Contract :=
  if caller ≠ c.owner then .error "Owner only" else .ok { c with flags := flags }

/-- `add_to_receiver_whitelist`: owner-gated; inserts each given address. -/
def add_to_receiver_whitelist (c : Contract) (caller : String) (addresses : List Nat) :
    Except String Contract :=
  if caller ≠ c.owner then .error "Owner only"
  else .ok { c with receiver_whitelist := addresses.foldl setInsert c.receiver_whitelist }

/-- `remove_from_receiver_whitelist`: owner-gated; removes each given address. -/
def remove_from_receiver_whitelist (c : Contract) (caller : String) (addresses : List Nat) :
    Except String Contract :=
  if caller ≠ c.owner then .error "Owner only"
  else .ok { c with receiver_whitelist := addresses.foldl setRemove c.receiver_whitelist }

/-- `clear_receiver_whitelist`: owner-gated; empties the set. -/
def clear_receiver_whitelist (c : Contract) (caller : String) : Except String Contract :=
  if caller ≠ c.owner then .error "Owner only"
  else .ok { c with receiver_whitelist := [] }

/-- `add_to_sender_whitelist`: owner-gated; inserts each given account id. -/
def add_to_sender_whitelist (c : Contract) (caller : String) (addresses : List String) :
    Except String Contract :=
  if caller ≠ c.owner then .error "Owner only"
  else .ok { c with sender_whitelist := addresses.foldl setInsert c.sender_whitelist }

/-- `remove_from_sender_whitelist`: owner-gated; removes each given account id. -/
def remove_from_sender_whitelist (c : Contract) (caller : String) (addresses : List String) :
    Except String Contract :=
  if caller ≠ c.owner then .error "Owner only"
  else .ok { c with sender_whitelist := addresses.foldl setRemove c.sender_whitelist }

/-- `clear_sender_whitelist`: owner-gated; empties the set. -/
def clear_sender_whitelist (c : Contract) (caller : String) : Except String Contract :=
  if caller ≠ c.owner then .error "Owner only"
  else .ok { c with sender_whitelist := [] }

/-! ### Foreign chain registry -/

/-- `add_foreign_chain`: owner-gated upsert of a configuration with an empty
paymaster pool and cursor 0. -/
def add_foreign_chain (c : Contract) (caller : String) (chain_id : Nat)
    (oracle_asset_id : String) (transfer_gas : Nat) (fee_rate : Nat × Nat) :
    Except String Contract :=
  if caller ≠ c.owner then .error "Owner only"
  else
    let config : ChainConfiguration :=
      { next_paymaster := 0, oracle_asset_id := oracle_asset_id,
        transfer_gas := transfer_gas, fee_rate := fee_rate, paymasters := [] }
    .ok { c with foreign_chains := mapInsert c.foreign_chains chain_id config }

/-- `set_foreign_chain_oracle_asset_id`: in-place update, panics on an
unknown chain. -/
def set_foreign_chain_oracle_asset_id (c : Contract) (caller : String) (chain_id : Nat)
    (oracle_asset_id : String) : Except String Contract :=
  if caller ≠ c.owner then .error "Owner only"
  else
    match mapLookup c.foreign_chains chain_id with
    | none => .error "Foreign chain does not exist"
    | some config =>
      let fcs := mapInsert c.foreign_chains chain_id
        ({ config with oracle_asset_id := oracle_asset_id })
      .ok { c with foreign_chains := fcs }

/-- `set_foreign_chain_transfer_gas`: in-place update, panics on an unknown
chain. -/
def set_foreign_chain_transfer_gas (c : Contract) (caller : String) (chain_id : Nat)
    (transfer_gas : Nat) : Except String Contract :=
  if caller ≠ c.owner then .error "Owner only"
  else
    match mapLookup c.foreign_chains chain_id with
    | none => .error "Foreign chain does not exist"
    | some config =>
      let fcs := mapInsert c.foreign_chains chain_id
        ({ config with transfer_gas := transfer_gas })
      .ok { c with foreign_chains := fcs }

/-- `remove_foreign_chain`: owner-gated; removes the entry when present and
clears its paymaster pool (the pool is stored inside the entry here, so
removal drops it with the entry); an unknown chain is a silent no-op. -/
def remove_foreign_chain (c : Contract) (caller : String) (chain_id : Nat) :
    Except String Contract :=
  if caller ≠ c.owner then .error "Owner only"
  else .ok { c with foreign_chains := mapRemove c.foreign_chains chain_id }

/-- `get_foreign_chains`: projection to (chain id, oracle asset id). -/
def get_foreign_chains (c : Contract) : List (Nat × String) :=
  c.foreign_chains.map (fun p => (p.1, p.2.oracle_asset_id))

/-! ### Paymaster pool -/

/-- Modelled from the spec: `AccountId::from_str(..).is_ok()` from near-sdk
(an external library): a home-chain account identifier is 2–64 characters,
all lowercase alphanumerics or `-` `_` `.` separators, with no separator at
either end and no two adjacent separators. The claims only use that some
strings (e.g. `"$"`) fail this validation. -/
def accountIdSeparator (ch : Char) : Bool :=
  ch = '-' || ch = '_' || ch = '.'

def accountIdChar (ch : Char) : Bool :=
  (ch.isLower || ch.isDigit) || accountIdSeparator ch

def noEdgeOrDoubleSeparator : List Char → Bool
  | [] => true
  | [ch] => !accountIdSeparator ch
  | ch :: ch' :: rest =>
    (!(accountIdSeparator ch && accountIdSeparator ch')) &&
      noEdgeOrDoubleSeparator (ch' :: rest)

def is_valid_account_id (s : String) : Bool :=
  let cs := s.toList
  decide (2 ≤ cs.length) && decide (cs.length ≤ 64) && cs.all accountIdChar &&
    (match cs with | [] => true | ch :: _ => !accountIdSeparator ch) &&
    noEdgeOrDoubleSeparator cs

/-- `add_paymaster`: owner-gated; requires the key path not to parse as an
account id; panics on an unknown chain; appends and returns the index the
new paymaster occupies (the pool length before the append). -/
def add_paymaster (c : Contract) (caller : String) (chain_id : Nat)
    (nonce : Nat) (key_path : String) : Except String (Contract × Nat) :=
  if caller ≠ c.owner then .error "Owner only"
  else if is_valid_account_id key_path then
    .error "Paymaster key path must not be a valid account id"
  else
    match mapLookup c.foreign_chains chain_id with
    | none => .error "Foreign chain does not exist"
    | some chain =>
      let fcs := mapInsert c.foreign_chains chain_id
        ({ chain with paymasters :=
            chain.paymasters ++ [{ nonce := nonce, key_path := key_path }] })
      .ok ({ c with foreign_chains := fcs }, chain.paymasters.length)

/-- `set_paymaster_nonce`: owner-gated bounds-checked in-place update. -/
def set_paymaster_nonce (c : Contract) (caller : String) (chain_id : Nat)
    (index : Nat) (nonce : Nat) : Except String Contract :=
  if caller ≠ c.owner then .error "Owner only"
  else
    match mapLookup c.foreign_chains chain_id with
    | none => .error "Foreign chain does not exist"
    | some chain =>
      match chain.paymasters.get? index with
      | none => .error "Invalid index"
      | some paymaster =>
        let fcs := mapInsert c.foreign_chains chain_id
          ({ chain with paymasters :=
              chain.paymasters.set index ({ paymaster with nonce := nonce }) })
        .ok { c with foreign_chains := fcs }

/-- `Vector::swap_remove`: overwrite position `i` with the last element,
then drop the last element. -/
def swapRemove (l : List PaymasterConfiguration) (i : Nat) : List PaymasterConfiguration :=
  (l.set i (l.getLastD { nonce := 0, key_path := "" })).dropLast

/-- `remove_paymaster`: owner-gated; panics on an unknown chain or an
out-of-range index; swap-removes, leaving `next_paymaster` untouched. -/
def remove_paymaster (c : Contract) (caller : String) (chain_id : Nat) (index : Nat) :
    Except String Contract :=
  if caller ≠ c.owner then .error "Owner only"
  else
    match mapLookup c.foreign_chains chain_id with
    | none => .error "Foreign chain does not exist"
    | some chain =>
      if index < chain.paymasters.length then
        let fcs := mapInsert c.foreign_chains chain_id
          ({ chain with paymasters := swapRemove chain.paymasters index })
        .ok { c with foreign_chains := fcs }
      else .error "Invalid index"

/-- `get_paymasters`: read-only listing, panics on an unknown chain. -/
def get_paymasters (c : Contract) (chain_id : Nat) :
    Except String (List PaymasterConfiguration) :=
  match mapLookup c.foreign_chains chain_id with
  | none => .error "Foreign chain does not exist"
  | some chain => .ok chain.paymasters

/-! ### Pending transaction sequence index -/

/-- The comparison `sort_by_cached_key(|&(id, _)| *id)` sorts by. -/
def txLe (a b : Nat × PendingTransactionSequence) : Bool :=
  a.1 ≤ b.1

/-- `list_transactions` before the final stringify/collect: sort the entries
by ascending id, skip `offset` (default 0), take `limit` (default
unbounded). -/
def list_transactions_raw (c : Contract) (offset limit : Option Nat) :
    List (Nat × PendingTransactionSequence) :=
  let v := c.pending_transaction_sequences.mergeSort txLe
  let v := v.drop (offset.getD 0)
  match limit with
  | none => v
  | some l => v.take l

/-- `list_transactions`: the listing keyed by the id's textual form (the
source collects these pairs into a `HashMap`). -/
def list_transactions (c : Contract) (offset limit : Option Nat) :
    List (String × PendingTransactionSequence) :=
  (list_transactions_raw c offset limit).map (fun p => (toString p.1, p.2))

/-- `get_transaction`: plain lookup; a missing id is `none`, not an error. -/
def get_transaction (c : Contract) (id : Nat) : Option PendingTransactionSequence :=
  mapLookup c.pending_transaction_sequences id

/-! ### Gas cost estimation -/

/-- A decoded, validated foreign transaction request: the three accessors
(`gas`, `gas_price`, `chain_id`) the estimation path reads. Fields are
`U256`/`u64` values, so they are below `2 ^ 256`. -/
structure ValidTransactionRequest where
  chain_id : Nat
  gas : Nat
  gas_price : Nat
deriving DecidableEq, Repr

/-- Modelled from the spec: the oracle collaborator's price data — a price
per asset id, as a rational `(numerator, denominator)` in a common quote
unit (`PriceData` from `oracle`, outside this file's source). -/
structure PriceData where
  prices : List (String × (Nat × Nat))
deriving DecidableEq, Repr

/-- Modelled from the spec: `ChainConfiguration::foreign_token_price`
(outside this file's source) converts a foreign-chain native gas amount
into a home-asset amount using the chain's fee rate and the oracle's price
for the chain's oracle asset id versus the local asset id: the amount is
scaled by the foreign/local price ratio and then by the fee rate. With fee
rate `(1,1)` and equal prices it is the identity. -/
def foreign_token_price (local_asset_id : String) (price_data : PriceData)
    (oracle_asset_id : String) (fee_rate : Nat × Nat) (amount : Nat) :
    Except String Nat :=
  match mapLookup price_data.prices oracle_asset_id,
        mapLookup price_data.prices local_asset_id with
  | some (fn, fd), some (ln, ld) =>
    if fd = 0 || ln = 0 || fee_rate.2 = 0 then .error "Invalid price data"
    else .ok (amount * fn * ld * fee_rate.1 / (fd * ln * fee_rate.2))
  | _, _ => .error "Price data not available for asset"

/-- `estimate_gas_cost`: takes the outcome of the external decode/validate
collaborator; panics when decoding failed or the transaction's chain is
unsupported; otherwise computes
`(transaction.gas + chain.transfer_gas) * transaction.gas_price` (`U256`
arithmetic: panics on 256-bit overflow) and converts it to a home-asset
amount via `foreign_token_price`. -/
def estimate_gas_cost (c : Contract)
    (decoded : Except String ValidTransactionRequest) (price_data : PriceData) :
    Except String Nat :=
  match decoded with
  | .error e => .error ("Invalid transaction request: " ++ e)
  | .ok transaction =>
    match mapLookup c.foreign_chains transaction.chain_id with
    | none => .error ("Paymaster not supported for chain id " ++ toString transaction.chain_id)
    | some config =>
      if transaction.gas + config.transfer_gas < 2 ^ 256 ∧
          (transaction.gas + config.transfer_gas) * transaction.gas_price < 2 ^ 256 then
        foreign_token_price c.oracle_local_asset_id price_data config.oracle_asset_id
          config.fee_rate ((transaction.gas + config.transfer_gas) * transaction.gas_price)
      else .error "arithmetic operation overflow"

/-! ### The mutating operations as a step relation

`Op` enumerates every externally invokable state-mutating entry point of
`impl_management.rs` (each constructor carries the caller's account id and
the call's arguments); `step` applies one: a panicking call aborts and the
state rolls back to the pre-call state. -/

deriving instance DecidableEq for Except

inductive Op where
  | opSetExpire (caller : String) (v : Nat)
  | opSetSignerContractId (caller : String) (id : String)
  | opRefreshSignerPublicKey (caller : String)
  | opRefreshCallback (caller : String) (result : Except Unit String)
  | opSetFlags (caller : String) (flags : Flags)
  | opAddToReceiverWhitelist (caller : String) (xs : List Nat)
  | opRemoveFromReceiverWhitelist (caller : String) (xs : List Nat)
  | opClearReceiverWhitelist (caller : String)
  | opAddToSenderWhitelist (caller : String) (xs : List String)
  | opRemoveFromSenderWhitelist (caller : String) (xs : List String)
  | opClearSenderWhitelist (caller : String)
  | opAddForeignChain (caller : String) (chain_id : Nat) (oracle : String)
      (tg : Nat) (fr : Nat × Nat)
  | opSetForeignChainOracleAssetId (caller : String) (chain_id : Nat) (oracle : String)
  | opSetForeignChainTransferGas (caller : String) (chain_id : Nat) (tg : Nat)
  | opRemoveForeignChain (caller : String) (chain_id : Nat)
  | opAddPaymaster (caller : String) (chain_id : Nat) (nonce : Nat) (key_path : String)
  | opSetPaymasterNonce (caller : String) (chain_id : Nat) (index : Nat) (nonce : Nat)
  | opRemovePaymaster (caller : String) (chain_id : Nat) (index : Nat)
  | opWithdrawCollectedFees (caller : String) (deposit : Nat) (asset : String)
      (amount : Option Nat) (receiver : Option String)
deriving DecidableEq

/-- `set_expire_sequence_after_ns`: owner-gated field write. -/
def set_expire_sequence_after_ns (c : Contract) (caller : String) (v : Nat) :
    Except String Contract :=
  if caller ≠ c.owner then .error "Owner only"
  else .ok { c with expire_sequence_after_ns := v }

/-- On a panic (`.error`) the NEAR runtime rolls the call back: keep `c`. -/
def orOld (c : Contract) : Except String Contract → Contract
  | .ok c' => c'
  | .error _ => c

def step (c : Contract) : Op → Contract
  | .opSetExpire caller v => orOld c (set_expire_sequence_after_ns c caller v)
  | .opSetSignerContractId caller id => orOld c (set_signer_contract_id c caller id)
  | .opRefreshSignerPublicKey caller => orOld c (refresh_signer_public_key c caller)
  | .opRefreshCallback caller r => orOld c (refresh_signer_public_key_callback c caller r)
  | .opSetFlags caller f => orOld c (set_flags c caller f)
  | .opAddToReceiverWhitelist caller xs => orOld c (add_to_receiver_whitelist c caller xs)
  | .opRemoveFromReceiverWhitelist caller xs =>
    orOld c (remove_from_receiver_whitelist c caller xs)
  | .opClearReceiverWhitelist caller => orOld c (clear_receiver_whitelist c caller)
  | .opAddToSenderWhitelist caller xs => orOld c (add_to_sender_whitelist c caller xs)
  | .opRemoveFromSenderWhitelist caller xs =>
    orOld c (remove_from_sender_whitelist c caller xs)
  | .opClearSenderWhitelist caller => orOld c (clear_sender_whitelist c caller)
  | .opAddForeignChain caller chain_id oracle tg fr =>
    orOld c (add_foreign_chain c caller chain_id oracle tg fr)
  | .opSetForeignChainOracleAssetId caller chain_id oracle =>
    orOld c (set_foreign_chain_oracle_asset_id c caller chain_id oracle)
  | .opSetForeignChainTransferGas caller chain_id tg =>
    orOld c (set_foreign_chain_transfer_gas c caller chain_id tg)
  | .opRemoveForeignChain caller chain_id => orOld c (remove_foreign_chain c caller chain_id)
  | .opAddPaymaster caller chain_id nonce key_path =>
    orOld c ((add_paymaster c caller chain_id nonce key_path).map Prod.fst)
  | .opSetPaymasterNonce caller chain_id index nonce =>
    orOld c (set_paymaster_nonce c caller chain_id index nonce)
  | .opRemovePaymaster caller chain_id index =>
    orOld c (remove_paymaster c caller chain_id index)
  | .opWithdrawCollectedFees caller deposit asset amount receiver =>
    orOld c ((withdraw_collected_fees c caller deposit asset amount receiver).map Prod.fst)

/-- Run a sequence of operations from left to right. -/
def steps (c : Contract) (ops : List Op) : Contract :=
  ops.foldl step c

/-! ### Lemmas about the association-list primitives -/

theorem mapLookup_mapInsert_self {α β : Type} [DecidableEq α]
    (m : List (α × β)) (k : α) (v : β) : mapLookup (mapInsert m k v) k = some v := by
  induction m with
  | nil => simp [mapInsert, mapLookup]
  | cons p rest ih =>
    obtain ⟨k', v'⟩ := p
    by_cases h : k' = k
    · subst h; simp [mapInsert, mapLookup]
    · simp [mapInsert, mapLookup, h, ih]

theorem mapLookup_mapInsert_ne {α β : Type} [DecidableEq α]
    (m : List (α × β)) (k b : α) (v : β) (h : b ≠ k) :
    mapLookup (mapInsert m k v) b = mapLookup m b := by
  induction m with
  | nil => simp [mapInsert, mapLookup, Ne.symm h]
  | cons p rest ih =>
    obtain ⟨k', v'⟩ := p
    by_cases hk : k' = k
    · subst hk
      simp [mapInsert, mapLookup, Ne.symm h]
    · by_cases hb : k' = b <;> simp [mapInsert, mapLookup, hk, hb, h, ih]

theorem mapInsert_map_fst_of_lookup {α β : Type} [DecidableEq α]
    (m : List (α × β)) (k : α) (v w : β) (h : mapLookup m k = some w) :
    (mapInsert m k v).map Prod.fst = m.map Prod.fst := by
  induction m with
  | nil => simp [mapLookup] at h
  | cons p rest ih =>
    obtain ⟨k', v'⟩ := p
    by_cases hk : k' = k
    · subst hk; simp [mapInsert]
    · simp [mapLookup, hk] at h
      simp [mapInsert, hk, ih h]

theorem mapRemove_of_lookup_none {α β : Type} [DecidableEq α]
    (m : List (α × β)) (k : α) (h : mapLookup m k = none) : mapRemove m k = m := by
  induction m with
  | nil => simp [mapRemove]
  | cons p rest ih =>
    obtain ⟨k', v'⟩ := p
    by_cases hk : k' = k
    · simp [mapLookup, hk] at h
    · simp [mapLookup, hk] at h
      simp [mapRemove, hk, ih h]

theorem mapRemove_mapInsert {α β : Type} [DecidableEq α]
    (m : List (α × β)) (k : α) (v : β) :
    mapRemove (mapInsert m k v) k = mapRemove m k := by
  induction m with
  | nil => simp [mapInsert, mapRemove]
  | cons p rest ih =>
    obtain ⟨k', v'⟩ := p
    by_cases hk : k' = k
    · subst hk; simp [mapInsert, mapRemove]
    · simp [mapInsert, mapRemove, hk, ih]

theorem not_mem_map_fst_mapRemove {α β : Type} [DecidableEq α]
    (m : List (α × β)) (k : α) (hnd : (m.map Prod.fst).Nodup) :
    k ∉ (mapRemove m k).map Prod.fst := by
  induction m with
  | nil => simp [mapRemove]
  | cons p rest ih =>
    obtain ⟨k', v'⟩ := p
    simp only [List.map_cons, List.nodup_cons] at hnd
    by_cases hk : k' = k
    · subst hk
      simpa [mapRemove] using hnd.1
    · intro hmem
      simp only [mapRemove, if_neg hk, List.map_cons, List.mem_cons] at hmem
      rcases hmem with hmem | hmem
      · exact hk hmem.symm
      · exact ih hnd.2 hmem

/-! ### Lemmas about the set primitives -/

theorem setInsert_of_mem {α : Type} [DecidableEq α] (s : List α) (x : α) (h : x ∈ s) :
    setInsert s x = s := by
  simp [setInsert, h]

theorem mem_setInsert_self {α : Type} [DecidableEq α] (s : List α) (x : α) :
    x ∈ setInsert s x := by
  by_cases h : x ∈ s <;> simp [setInsert, h]

theorem setRemove_of_not_mem {α : Type} [DecidableEq α] (s : List α) (x : α) (h : x ∉ s) :
    setRemove s x = s := by
  induction s with
  | nil => simp [setRemove]
  | cons y rest ih =>
    simp only [List.mem_cons, not_or] at h
    simp [setRemove, Ne.symm h.1, ih h.2]

theorem setRemove_setInsert_of_not_mem {α : Type} [DecidableEq α] (s : List α) (x : α)
    (h : x ∉ s) : setRemove (setInsert s x) x = s := by
  induction s with
  | nil => simp [setInsert, setRemove]
  | cons y rest ih =>
    simp only [List.mem_cons, not_or] at h
    have hy : y ≠ x := Ne.symm h.1
    have hr : x ∉ rest := h.2
    have hins : setInsert (y :: rest) x = y :: (rest ++ [x]) := by
      simp [setInsert, h.1, hr]
    rw [hins]
    have ihr := ih hr
    simp only [setInsert, if_neg hr] at ihr
    simp [setRemove, hy, ihr]

theorem not_mem_setRemove {α : Type} [DecidableEq α] (s : List α) (x : α) (hnd : s.Nodup) :
    x ∉ setRemove s x := by
  induction s with
  | nil => simp [setRemove]
  | cons y rest ih =>
    simp only [List.nodup_cons] at hnd
    by_cases hy : y = x
    · subst hy; simpa [setRemove] using hnd.1
    · intro hmem
      simp only [setRemove, if_neg hy, List.mem_cons] at hmem
      rcases hmem with hmem | hmem
      · exact hy hmem.symm
      · exact ih hnd.2 hmem

/-! ### Concrete sample states used by witnesses and counterexamples -/

/-- A sample supported chain: chain id 97, `transfer_gas = 21000`, fee rate
`(1,1)`, oracle asset `"eth"`, one paymaster, cursor 1. -/
def sampleChain : ChainConfiguration :=
  { next_paymaster := 1
    oracle_asset_id := "eth"
    transfer_gas := 21000
    fee_rate := (1, 1)
    paymasters := [{ nonce := 3, key_path := "$" }, { nonce := 8, key_path := "$$" }] }

/-- A sample contract state. -/
def c0 : Contract :=
  { owner := "alice"
    current_account_id := "gas.station"
    expire_sequence_after_ns := 0
    signer_contract_id := "signer.a"
    signer_contract_public_key := some "pk0"
    flags := { raw := 0 }
    receiver_whitelist := [7]
    sender_whitelist := ["bob"]
    foreign_chains := [(97, sampleChain)]
    collected_fees := [("near", 100), ("usdc", 5)]
    pending_transaction_sequences := [(5, { payload := 50 }), (1, { payload := 10 }),
                                      (7, { payload := 70 }), (3, { payload := 30 })]
    oracle_local_asset_id := "near" }

/-! ### C1: overdraft of the fee ledger fails closed -/

/-- C1: with a recorded balance `B` for `asset` and a requested amount
`a > B`, `withdraw_collected_fees` fails (the checked subtraction errors
rather than underflowing) and the call rolls back, leaving the whole
ledger — this asset's balance and every other entry — unchanged; an
unspecified amount is resolved to the full balance `B` before the checked
subtraction, so the call behaves exactly like an explicit request for `B`. -/
theorem C1_withdraw_overdraft_fails_closed (c : Contract) (caller asset : String)
    (B a : Nat) (r : Option String)
    (hc : caller = c.owner) (hB : mapLookup c.collected_fees asset = some B)
    (ha : B < a) :
    withdraw_collected_fees c caller 1 asset (some a) r = .error "Not enough fees to withdraw" ∧
    step c (.opWithdrawCollectedFees caller 1 asset (some a) r) = c ∧
    withdraw_collected_fees c caller 1 asset none r =
      withdraw_collected_fees c caller 1 asset (some B) r := by
  subst hc
  refine ⟨?_, ?_, ?_⟩
  · simp [withdraw_collected_fees, hB, Nat.not_le.mpr ha]
  · simp [step, orOld, withdraw_collected_fees, hB, Nat.not_le.mpr ha, Except.map]
  · simp [withdraw_collected_fees, hB]

/-- Witness for C1 at the sample state: `"near"` has balance 100 and a
withdrawal of 101 fails closed. -/
theorem C1_witness :
    ("alice" = c0.owner ∧ mapLookup c0.collected_fees "near" = some 100 ∧ (100 : Nat) < 101) ∧
    (withdraw_collected_fees c0 "alice" 1 "near" (some 101) none =
        .error "Not enough fees to withdraw" ∧
      step c0 (.opWithdrawCollectedFees "alice" 1 "near" (some 101) none) = c0 ∧
      withdraw_collected_fees c0 "alice" 1 "near" none none =
        withdraw_collected_fees c0 "alice" 1 "near" (some 100) none) :=
  ⟨⟨rfl, by decide, by decide⟩,
   C1_withdraw_overdraft_fails_closed c0 "alice" "near" 100 101 none rfl (by decide) (by decide)⟩

/-! ### C10: withdrawal never removes a ledger entry -/

/-- C10: a successful withdrawal keeps the asset's entry (now holding the
reduced balance, possibly zero), changes no other entry and does not change
the set of ledger keys; and a withdrawal naming an asset with no ledger
entry fails with an error and rolls back without any state change. -/
theorem C10_withdraw_preserves_entries (c : Contract) (caller asset : String)
    (amt : Option Nat) (r : Option String) (hc : caller = c.owner) :
    (∀ B, mapLookup c.collected_fees asset = some B →
      ∀ c' t, withdraw_collected_fees c caller 1 asset amt r = .ok (c', t) →
        t.amount = amt.getD B ∧
        mapLookup c'.collected_fees asset = some (B - t.amount) ∧
        c'.collected_fees.map Prod.fst = c.collected_fees.map Prod.fst ∧
        (∀ b, b ≠ asset → mapLookup c'.collected_fees b = mapLookup c.collected_fees b)) ∧
    (mapLookup c.collected_fees asset = none →
      withdraw_collected_fees c caller 1 asset amt r = .error "No fee entry for provided asset ID" ∧
      step c (.opWithdrawCollectedFees caller 1 asset amt r) = c) := by
  subst hc
  constructor
  · intro B hB c' t hok
    simp only [withdraw_collected_fees, ne_eq, not_true_eq_false, if_false, hB] at hok
    by_cases hle : amt.getD B ≤ B
    · simp only [if_pos hle, if_neg, not_true_eq_false, ite_false,
        Except.ok.injEq, Prod.mk.injEq] at hok
      obtain ⟨h1, h2⟩ := hok
      subst h1; subst h2
      refine ⟨rfl, ?_, ?_, ?_⟩
      · simp [mapLookup_mapInsert_self]
      · exact mapInsert_map_fst_of_lookup _ _ _ _ hB
      · intro b hb
        exact mapLookup_mapInsert_ne _ _ _ _ hb
    · simp [if_neg hle] at hok
  · intro hB
    constructor
    · simp [withdraw_collected_fees, hB]
    · simp [step, orOld, withdraw_collected_fees, hB, Except.map]

/-- Witness for C10 at the sample state: withdrawing 40 of the 100 "near"
fees keeps the entry at 60, leaves "usdc" untouched, and the unknown asset
"dai" makes the call fail without a state change. -/
theorem C10_witness :
    ("alice" = c0.owner ∧ mapLookup c0.collected_fees "near" = some 100 ∧
      withdraw_collected_fees c0 "alice" 1 "near" (some 40) none =
        .ok ({ c0 with collected_fees := [("near", 60), ("usdc", 5)] },
             { asset := "near", receiver := "alice", amount := 40 }) ∧
      mapLookup c0.collected_fees "dai" = none) ∧
    (mapLookup [("near", 60), ("usdc", 5)] "near" = some (100 - 40) ∧
      mapLookup [("near", 60), ("usdc", 5)] "usdc" = mapLookup c0.collected_fees "usdc") ∧
    (withdraw_collected_fees c0 "alice" 1 "dai" (some 40) none =
        .error "No fee entry for provided asset ID" ∧
      step c0 (.opWithdrawCollectedFees "alice" 1 "dai" (some 40) none) = c0) := by
  refine ⟨⟨rfl, by decide, by decide, by decide⟩, ?_, ?_⟩
  · have h := (C10_withdraw_preserves_entries c0 "alice" "near" (some 40) none rfl).1
      100 (by decide) { c0 with collected_fees := [("near", 60), ("usdc", 5)] }
      { asset := "near", receiver := "alice", amount := 40 } (by decide)
    exact ⟨by simpa using h.2.1, h.2.2.2 "usdc" (by decide)⟩
  · exact (C10_withdraw_preserves_entries c0 "alice" "dai" (some 40) none rfl).2 (by decide)

/-! ### C3: full-balance withdrawal -/

/-- The state after withdrawing the full "near" balance of `c0`. -/
def c3_after_first : Contract :=
  step c0 (.opWithdrawCollectedFees "alice" 1 "near" none none)

/-- Counterexample to C3 as stated: after withdrawing the full balance
(100), the balance is zero — but a subsequent full-balance (unspecified
amount) withdrawal for the same asset does **not** fail with an
insufficient-funds error: the amount resolves to the now-zero balance, the
checked subtraction `0 - 0` succeeds, and the call returns a zero-amount
transfer. -/
theorem C3_counterexample :
    mapLookup c0.collected_fees "near" = some 100 ∧
    withdraw_collected_fees c0 "alice" 1 "near" none none =
      .ok ({ c0 with collected_fees := [("near", 0), ("usdc", 5)] },
           { asset := "near", receiver := "alice", amount := 100 }) ∧
    mapLookup c3_after_first.collected_fees "near" = some 0 ∧
    withdraw_collected_fees c3_after_first "alice" 1 "near" none none =
      .ok (c3_after_first, { asset := "near", receiver := "alice", amount := 0 }) := by
  refine ⟨by decide, by decide, by decide, ?_⟩
  have h : c3_after_first = { c0 with collected_fees := [("near", 0), ("usdc", 5)] } := by decide
  rw [h]
  decide

/-- C3 (amended): withdrawing exactly the full recorded balance succeeds
and leaves the balance recorded as zero; a subsequent withdrawal that
requests the original (positive) balance again fails with the
insufficient-funds error, while a subsequent unspecified-amount
(full-balance) withdrawal succeeds as a zero-amount withdrawal. -/
theorem C3_full_withdrawal (c : Contract) (caller asset : String) (r : Option String)
    (B : Nat) (hc : caller = c.owner) (hB : mapLookup c.collected_fees asset = some B) :
    withdraw_collected_fees c caller 1 asset (some B) r =
      .ok ({ c with collected_fees := mapInsert c.collected_fees asset 0 },
           { asset := asset, receiver := r.getD c.owner, amount := B }) ∧
    mapLookup (mapInsert c.collected_fees asset 0) asset = some 0 ∧
    (0 < B →
      withdraw_collected_fees { c with collected_fees := mapInsert c.collected_fees asset 0 }
        caller 1 asset (some B) r = .error "Not enough fees to withdraw") ∧
    withdraw_collected_fees { c with collected_fees := mapInsert c.collected_fees asset 0 }
        caller 1 asset none r =
      .ok ({ c with collected_fees := mapInsert (mapInsert c.collected_fees asset 0) asset 0 },
           { asset := asset, receiver := r.getD c.owner, amount := 0 }) := by
  subst hc
  have hz : mapLookup (mapInsert c.collected_fees asset 0) asset = some 0 :=
    mapLookup_mapInsert_self _ _ _
  refine ⟨?_, hz, ?_, ?_⟩
  · simp [withdraw_collected_fees, hB]
  · intro hpos
    simp [withdraw_collected_fees, hz, Nat.not_le.mpr hpos]
  · simp [withdraw_collected_fees, hz]

/-- Witness for the amended C3 at the sample state. -/
theorem C3_witness :
    ("alice" = c0.owner ∧ mapLookup c0.collected_fees "near" = some 100) ∧
    withdraw_collected_fees c0 "alice" 1 "near" (some 100) none =
      .ok ({ c0 with collected_fees := mapInsert c0.collected_fees "near" 0 },
           { asset := "near", receiver := "alice", amount := 100 }) ∧
    (0 < 100 →
      withdraw_collected_fees { c0 with collected_fees := mapInsert c0.collected_fees "near" 0 }
        "alice" 1 "near" (some 100) none = .error "Not enough fees to withdraw") := by
  have h := C3_full_withdrawal c0 "alice" "near" none 100 rfl (by decide)
  exact ⟨⟨rfl, by decide⟩, h.1, h.2.2.1⟩

/-! ### C7: whitelist set algebra -/

/-- The sample state after adding and then removing address 7 (already a
member beforehand) from the receiver whitelist. -/
def c7_after : Contract :=
  step (step c0 (.opAddToReceiverWhitelist "alice" [7]))
    (.opRemoveFromReceiverWhitelist "alice" [7])

/-- Counterexample to C7 as stated: when the element is already present,
add (a no-op) followed by remove does **not** restore the pre-add
membership — the original member is deleted. Address 7 is in `c0`'s
receiver whitelist but gone after add-then-remove. -/
theorem C7_counterexample :
    7 ∈ c0.receiver_whitelist ∧ 7 ∉ c7_after.receiver_whitelist := by
  decide

/-- C7 (amended): for both whitelists, adding a present element and
removing an absent one are exact no-ops; add followed by remove restores
the pre-add state exactly **provided the element was not already present**;
repeated add is idempotent, and repeated remove is idempotent on duplicate-
free whitelists (the stores never hold duplicates). -/
theorem C7_whitelist_set_algebra (c : Contract) (caller : String) (x : Nat) (s : String)
    (hc : caller = c.owner) :
    (x ∈ c.receiver_whitelist → add_to_receiver_whitelist c caller [x] = .ok c) ∧
    (x ∉ c.receiver_whitelist → remove_from_receiver_whitelist c caller [x] = .ok c) ∧
    (x ∉ c.receiver_whitelist →
      step (step c (.opAddToReceiverWhitelist caller [x]))
        (.opRemoveFromReceiverWhitelist caller [x]) = c) ∧
    (step (step c (.opAddToReceiverWhitelist caller [x])) (.opAddToReceiverWhitelist caller [x]) =
      step c (.opAddToReceiverWhitelist caller [x])) ∧
    (c.receiver_whitelist.Nodup →
      step (step c (.opRemoveFromReceiverWhitelist caller [x]))
        (.opRemoveFromReceiverWhitelist caller [x]) =
      step c (.opRemoveFromReceiverWhitelist caller [x])) ∧
    (s ∈ c.sender_whitelist → add_to_sender_whitelist c caller [s] = .ok c) ∧
    (s ∉ c.sender_whitelist → remove_from_sender_whitelist c caller [s] = .ok c) ∧
    (s ∉ c.sender_whitelist →
      step (step c (.opAddToSenderWhitelist caller [s]))
        (.opRemoveFromSenderWhitelist caller [s]) = c) ∧
    (step (step c (.opAddToSenderWhitelist caller [s])) (.opAddToSenderWhitelist caller [s]) =
      step c (.opAddToSenderWhitelist caller [s])) ∧
    (c.sender_whitelist.Nodup →
      step (step c (.opRemoveFromSenderWhitelist caller [s]))
        (.opRemoveFromSenderWhitelist caller [s]) =
      step c (.opRemoveFromSenderWhitelist caller [s])) := by
  subst hc
  refine ⟨?_, ?_, ?_, ?_, ?_, ?_, ?_, ?_, ?_, ?_⟩
  · intro hx
    simp [add_to_receiver_whitelist, setInsert_of_mem _ _ hx]
  · intro hx
    simp [remove_from_receiver_whitelist, setRemove_of_not_mem _ _ hx]
  · intro hx
    simp [step, orOld, add_to_receiver_whitelist, remove_from_receiver_whitelist,
      setRemove_setInsert_of_not_mem _ _ hx]
  · simp [step, orOld, add_to_receiver_whitelist,
      setInsert_of_mem _ _ (mem_setInsert_self c.receiver_whitelist x)]
  · intro hnd
    simp [step, orOld, remove_from_receiver_whitelist,
      setRemove_of_not_mem _ _ (not_mem_setRemove _ _ hnd)]
  · intro hx
    simp [add_to_sender_whitelist, setInsert_of_mem _ _ hx]
  · intro hx
    simp [remove_from_sender_whitelist, setRemove_of_not_mem _ _ hx]
  · intro hx
    simp [step, orOld, add_to_sender_whitelist, remove_from_sender_whitelist,
      setRemove_setInsert_of_not_mem _ _ hx]
  · simp [step, orOld, add_to_sender_whitelist,
      setInsert_of_mem _ _ (mem_setInsert_self c.sender_whitelist s)]
  · intro hnd
    simp [step, orOld, remove_from_sender_whitelist,
      setRemove_of_not_mem _ _ (not_mem_setRemove _ _ hnd)]

/-- Witness for the amended C7 at the sample state: address 9 is absent
from the receiver whitelist, "carol" absent from the sender whitelist, and
both whitelists are duplicate-free. -/
theorem C7_witness :
    ("alice" = c0.owner ∧ (9 : Nat) ∉ c0.receiver_whitelist ∧
      "carol" ∉ c0.sender_whitelist ∧ c0.receiver_whitelist.Nodup ∧
      c0.sender_whitelist.Nodup) ∧
    step (step c0 (.opAddToReceiverWhitelist "alice" [9]))
      (.opRemoveFromReceiverWhitelist "alice" [9]) = c0 ∧
    step (step c0 (.opAddToSenderWhitelist "alice" ["carol"]))
      (.opRemoveFromSenderWhitelist "alice" ["carol"]) = c0 ∧
    step (step c0 (.opAddToSenderWhitelist "alice" ["carol"]))
      (.opAddToSenderWhitelist "alice" ["carol"]) =
      step c0 (.opAddToSenderWhitelist "alice" ["carol"]) ∧
    step (step c0 (.opRemoveFromSenderWhitelist "alice" ["carol"]))
      (.opRemoveFromSenderWhitelist "alice" ["carol"]) =
      step c0 (.opRemoveFromSenderWhitelist "alice" ["carol"]) := by
  have h := C7_whitelist_set_algebra c0 "alice" 9 "carol" rfl
  exact ⟨⟨rfl, by decide, by decide, by decide, by decide⟩,
    h.2.2.1 (by decide), h.2.2.2.2.2.2.2.1 (by decide),
    h.2.2.2.2.2.2.2.2.1, h.2.2.2.2.2.2.2.2.2 (by decide)⟩

/-! ### C8: foreign chain removal -/

/-- C8: removing an unknown chain id is a silent no-op (`.ok` with the
state unchanged, not an error); add followed by remove leaves
`get_foreign_chains` with no entry for that id (given the store's key-
uniqueness invariant); and a chain re-added under the same id afterwards
shows an empty paymaster pool via `get_paymasters` — no leaked entries. -/
theorem C8_remove_foreign_chain (c : Contract) (caller : String) (chain_id : Nat)
    (oracle : String) (tg : Nat) (fr : Nat × Nat) (hc : caller = c.owner)
    (hnd : (c.foreign_chains.map Prod.fst).Nodup) :
    (mapLookup c.foreign_chains chain_id = none →
      remove_foreign_chain c caller chain_id = .ok c) ∧
    (∀ p ∈ get_foreign_chains
        (step (step c (.opAddForeignChain caller chain_id oracle tg fr))
          (.opRemoveForeignChain caller chain_id)),
      p.1 ≠ chain_id) ∧
    get_paymasters
        (step (step (step c (.opAddForeignChain caller chain_id oracle tg fr))
          (.opRemoveForeignChain caller chain_id))
          (.opAddForeignChain caller chain_id oracle tg fr))
        chain_id = .ok [] := by
  subst hc
  refine ⟨?_, ?_, ?_⟩
  · intro hnone
    simp [remove_foreign_chain, mapRemove_of_lookup_none _ _ hnone]
  · intro p hp
    simp only [step, orOld, add_foreign_chain, remove_foreign_chain, ne_eq,
      not_true_eq_false, if_false, get_foreign_chains, List.mem_map] at hp
    obtain ⟨q, hq, hqp⟩ := hp
    rw [mapRemove_mapInsert] at hq
    intro hid
    have hq1 : q.1 = chain_id := by rw [← hid, ← hqp]
    have hm := List.mem_map_of_mem Prod.fst hq
    rw [hq1] at hm
    exact not_mem_map_fst_mapRemove c.foreign_chains chain_id hnd hm
  · simp [step, orOld, add_foreign_chain, remove_foreign_chain, get_paymasters,
      mapLookup_mapInsert_self]

/-- Witness for C8 at the sample state with the fresh chain id 55. -/
theorem C8_witness :
    ("alice" = c0.owner ∧ (c0.foreign_chains.map Prod.fst).Nodup ∧
      mapLookup c0.foreign_chains 55 = none) ∧
    remove_foreign_chain c0 "alice" 55 = .ok c0 ∧
    get_paymasters
        (step (step (step c0 (.opAddForeignChain "alice" 55 "bnb" 21000 (1, 1)))
          (.opRemoveForeignChain "alice" 55))
          (.opAddForeignChain "alice" 55 "bnb" 21000 (1, 1)))
        55 = .ok [] := by
  have h := C8_remove_foreign_chain c0 "alice" 55 "bnb" 21000 (1, 1) rfl (by decide)
  exact ⟨⟨rfl, by decide, by decide⟩, h.1 (by decide), h.2.2⟩

/-! ### C9: the refresh callback commits without re-checking the signer id -/

/-- C9: for **every** pre-state, a successful callback result `k` is stored
unconditionally — the callback never compares `signer_contract_id` with
the identity the refresh request was issued to. In particular, when
`set_signer_contract_id` changed the signer during the asynchronous window,
the key fetched from the previous signer is committed as the cached key of
the new signer. -/
theorem C9_callback_commits_unconditionally (c : Contract) (k caller new_id : String)
    (hc : caller = c.owner) :
    refresh_signer_public_key_callback c c.current_account_id (.ok k) =
      .ok { c with signer_contract_public_key := some k } ∧
    (step (step c (.opSetSignerContractId caller new_id))
        (.opRefreshCallback c.current_account_id (.ok k))).signer_contract_public_key =
      some k ∧
    (step (step c (.opSetSignerContractId caller new_id))
        (.opRefreshCallback c.current_account_id (.ok k))).signer_contract_id = new_id := by
  subst hc
  refine ⟨by simp [refresh_signer_public_key_callback], ?_, ?_⟩ <;>
    by_cases h : c.signer_contract_id = new_id <;>
      simp [step, orOld, set_signer_contract_id, refresh_signer_public_key_callback, h]

/-- Witness for C9 at the sample state: the signer is switched from
"signer.a" to "signer.b" mid-flight, yet the stale key "pk-from-a" is
committed. -/
theorem C9_witness :
    "alice" = c0.owner ∧
    (step (step c0 (.opSetSignerContractId "alice" "signer.b"))
        (.opRefreshCallback c0.current_account_id (.ok "pk-from-a"))).signer_contract_public_key =
      some "pk-from-a" ∧
    (step (step c0 (.opSetSignerContractId "alice" "signer.b"))
        (.opRefreshCallback c0.current_account_id (.ok "pk-from-a"))).signer_contract_id =
      "signer.b" := by
  have h := C9_callback_commits_unconditionally c0 "pk-from-a" "alice" "signer.b" rfl
  exact ⟨rfl, h.2.1, h.2.2⟩

/-! ### C4: transaction listing order and pagination -/

/-- Sorting the index by `txLe` yields ids in strictly ascending order when
the index's keys are duplicate-free. -/
theorem pairwise_lt_mergeSort_tx (l : List (Nat × PendingTransactionSequence))
    (hnd : (l.map Prod.fst).Nodup) :
    List.Pairwise (fun a b => a.1 < b.1) (l.mergeSort txLe) := by
  have hsorted : List.Pairwise (fun a b => txLe a b = true) (l.mergeSort txLe) :=
    List.sorted_mergeSort
      (fun a b c hab hbc => by
        simp only [txLe, decide_eq_true_eq] at hab hbc ⊢
        omega)
      (fun a b => by
        simp only [txLe, Bool.or_eq_true, decide_eq_true_eq]
        omega)
      l
  have hnd' : ((l.mergeSort txLe).map Prod.fst).Nodup :=
    ((List.mergeSort_perm l txLe).map Prod.fst).nodup_iff.mpr hnd
  have hne : List.Pairwise (fun a b => Prod.fst a ≠ Prod.fst b) (l.mergeSort txLe) :=
    List.pairwise_map.mp hnd'
  exact (hsorted.and hne).imp (fun h => by
    obtain ⟨h1, h2⟩ := h
    simp only [txLe, decide_eq_true_eq] at h1
    omega)

unseal List.merge List.mergeSort in
/-- C4: with duplicate-free keys (the map invariant), `list_transactions`
returns the entries in strictly ascending sequence-id order after applying
`offset` (default 0) and `limit` (default unbounded), keyed by the id's
textual form; with both defaults it returns exactly the whole index; and on
the sample state with ids {1,3,5,7}, `offset = 2, limit = 1` returns
exactly the entry with id 5. -/
theorem C4_list_transactions_sorted (c : Contract) (offset limit : Option Nat)
    (hnd : (c.pending_transaction_sequences.map Prod.fst).Nodup) :
    List.Pairwise (fun a b => a.1 < b.1) (list_transactions_raw c offset limit) ∧
    list_transactions c offset limit =
      (list_transactions_raw c offset limit).map (fun p => (toString p.1, p.2)) ∧
    (list_transactions_raw c none none).Perm c.pending_transaction_sequences ∧
    list_transactions c0 (some 2) (some 1) = [("5", { payload := 50 })] := by
  refine ⟨?_, rfl, ?_, ?_⟩
  · have hall := pairwise_lt_mergeSort_tx c.pending_transaction_sequences hnd
    have hdrop : List.Pairwise (fun a b => a.1 < b.1)
        ((c.pending_transaction_sequences.mergeSort txLe).drop (offset.getD 0)) :=
      List.Pairwise.sublist (List.drop_sublist _ _) hall
    simp only [list_transactions_raw]
    cases limit with
    | none => exact hdrop
    | some l => exact List.Pairwise.sublist (List.take_sublist _ _) hdrop
  · simpa [list_transactions_raw] using
      List.mergeSort_perm c.pending_transaction_sequences txLe
  · decide

/-- Witness for C4 at the sample state (ids {1,3,5,7} stored unsorted). -/
theorem C4_witness :
    (c0.pending_transaction_sequences.map Prod.fst).Nodup ∧
    list_transactions c0 (some 2) (some 1) = [("5", { payload := 50 })] :=
  ⟨by decide, (C4_list_transactions_sorted c0 (some 2) (some 1) (by decide)).2.2.2⟩

/-! ### C5: paymaster swap-removal -/

/-- Swap-removal at an in-range index keeps exactly the other elements, as
a multiset: it is a permutation of plain removal at that index. -/
theorem swapRemove_perm_eraseIdx (l : List PaymasterConfiguration) (i : Nat)
    (h : i < l.length) : (swapRemove l i).Perm (l.eraseIdx i) := by
  have hne : l ≠ [] := List.ne_nil_of_length_pos (Nat.lt_of_le_of_lt (Nat.zero_le i) h)
  have hy : l.getLastD { nonce := 0, key_path := "" } = l.getLast hne := by
    rw [List.getLastD_eq_getLast?, List.getLast?_eq_getLast l hne, Option.getD_some]
  unfold swapRemove
  rw [hy, List.set_eq_take_append_cons_drop, if_pos h, List.eraseIdx_eq_take_drop_succ]
  by_cases hlast : l.drop (i + 1) = []
  · rw [hlast, List.dropLast_concat]
    simp
  · rw [List.dropLast_append_of_ne_nil _ (List.cons_ne_nil _ _)]
    have hcons : (l.getLast hne :: l.drop (i + 1)).dropLast =
        l.getLast hne :: (l.drop (i + 1)).dropLast := by
      rw [show l.getLast hne :: l.drop (i + 1) = [l.getLast hne] ++ l.drop (i + 1) from rfl,
        List.dropLast_append_of_ne_nil _ hlast]
      rfl
    rw [hcons]
    apply List.Perm.append_left
    have hgl : (l.drop (i + 1)).getLast hlast = l.getLast hne := List.getLast_drop hlast
    have hd : (l.drop (i + 1)).dropLast ++ [l.getLast hne] = l.drop (i + 1) := by
      rw [← hgl]
      exact List.dropLast_append_getLast hlast
    have hperm := (List.perm_append_singleton (l.getLast hne) (l.drop (i + 1)).dropLast).symm
    rw [hd] at hperm
    exact hperm

/-- C5: for a known chain and an in-range index, `remove_paymaster`
succeeds, stores a pool that is a permutation of the other paymasters
(plain removal at that index) — so their `(nonce, key_path)` multiset is
preserved though indices shift — keeps `next_paymaster` untouched, and
leaves every other chain's entry unchanged; an out-of-range index or an
unknown chain makes the call fail with the source's panic message and roll
back with no state change. -/
theorem C5_remove_paymaster (c : Contract) (caller : String) (chain_id index : Nat)
    (hc : caller = c.owner) :
    (∀ chain, mapLookup c.foreign_chains chain_id = some chain →
      (index < chain.paymasters.length →
        mapLookup (step c (.opRemovePaymaster caller chain_id index)).foreign_chains chain_id =
          some ({ chain with paymasters := swapRemove chain.paymasters index }) ∧
        (remove_paymaster c caller chain_id index).isOk = true ∧
        (swapRemove chain.paymasters index).Perm (chain.paymasters.eraseIdx index) ∧
        ({ chain with paymasters := swapRemove chain.paymasters index }).next_paymaster =
          chain.next_paymaster ∧
        (∀ other, other ≠ chain_id →
          mapLookup (step c (.opRemovePaymaster caller chain_id index)).foreign_chains other =
            mapLookup c.foreign_chains other)) ∧
      (chain.paymasters.length ≤ index →
        remove_paymaster c caller chain_id index = .error "Invalid index" ∧
        step c (.opRemovePaymaster caller chain_id index) = c)) ∧
    (mapLookup c.foreign_chains chain_id = none →
      remove_paymaster c caller chain_id index = .error "Foreign chain does not exist" ∧
      step c (.opRemovePaymaster caller chain_id index) = c) := by
  subst hc
  constructor
  · intro chain hch
    constructor
    · intro h
      have hstep : (step c (.opRemovePaymaster c.owner chain_id index)).foreign_chains =
          mapInsert c.foreign_chains chain_id
            ({ chain with paymasters := swapRemove chain.paymasters index }) := by
        simp [step, orOld, remove_paymaster, hch, h]
      refine ⟨?_, ?_, swapRemove_perm_eraseIdx _ _ h, rfl, ?_⟩
      · rw [hstep]
        exact mapLookup_mapInsert_self _ _ _
      · simp [remove_paymaster, hch, h, Except.isOk, Except.toBool]
      · intro other ho
        rw [hstep]
        exact mapLookup_mapInsert_ne _ _ _ _ ho
    · intro hge
      have hnl : ¬ index < chain.paymasters.length := Nat.not_lt.mpr hge
      exact ⟨by simp [remove_paymaster, hch, hnl],
             by simp [step, orOld, remove_paymaster, hch, hnl]⟩
  · intro hnone
    exact ⟨by simp [remove_paymaster, hnone],
           by simp [step, orOld, remove_paymaster, hnone]⟩

/-- Witness for C5 at the sample state: chain 97 holds two paymasters and
index 0 is removed; the survivor's `(nonce, key_path)` pair is preserved
and the cursor is untouched. -/
theorem C5_witness :
    ("alice" = c0.owner ∧ mapLookup c0.foreign_chains 97 = some sampleChain ∧
      0 < sampleChain.paymasters.length) ∧
    (swapRemove sampleChain.paymasters 0).Perm (sampleChain.paymasters.eraseIdx 0) ∧
    mapLookup (step c0 (.opRemovePaymaster "alice" 97 0)).foreign_chains 97 =
      some ({ sampleChain with paymasters := swapRemove sampleChain.paymasters 0 }) ∧
    ({ sampleChain with paymasters := swapRemove sampleChain.paymasters 0 }).next_paymaster =
      sampleChain.next_paymaster := by
  have h := ((C5_remove_paymaster c0 "alice" 97 0 rfl).1 sampleChain (by decide)).1 (by decide)
  exact ⟨⟨rfl, by decide, by decide⟩, h.2.2.1, h.1, h.2.2.2.1⟩

/-! ### C6: gas cost estimation -/

/-- Sample oracle data: a 1:1 price between "eth" (the chain's oracle
asset) and "near" (the local asset). -/
def pd0 : PriceData :=
  { prices := [("eth", (1, 1)), ("near", (1, 1))] }

/-- C6: for a supported chain and in-range `U256` values,
`estimate_gas_cost` computes `(gas + transfer_gas) * gas_price` and
converts it via the fee rate and oracle price; a decoding failure or an
unsupported chain makes it fail; and at `transfer_gas = 21000`,
`gas = 50000`, `gas_price = 1`, fee rate `(1,1)` and a 1:1 price the result
is exactly 71000. -/
theorem C6_estimate_gas_cost (c : Contract) (t : ValidTransactionRequest)
    (pd : PriceData) (config : ChainConfiguration)
    (hcfg : mapLookup c.foreign_chains t.chain_id = some config)
    (h1 : t.gas + config.transfer_gas < 2 ^ 256)
    (h2 : (t.gas + config.transfer_gas) * t.gas_price < 2 ^ 256) :
    estimate_gas_cost c (.ok t) pd =
      foreign_token_price c.oracle_local_asset_id pd config.oracle_asset_id
        config.fee_rate ((t.gas + config.transfer_gas) * t.gas_price) ∧
    (∀ e, estimate_gas_cost c (.error e) pd =
      .error ("Invalid transaction request: " ++ e)) ∧
    (∀ t' : ValidTransactionRequest, mapLookup c.foreign_chains t'.chain_id = none →
      estimate_gas_cost c (.ok t') pd =
        .error ("Paymaster not supported for chain id " ++ toString t'.chain_id)) ∧
    estimate_gas_cost c0 (.ok { chain_id := 97, gas := 50000, gas_price := 1 }) pd0 =
      .ok 71000 := by
  refine ⟨?_, fun e => rfl, ?_, by decide⟩
  · simp only [estimate_gas_cost, hcfg]
    rw [if_pos ⟨h1, h2⟩]
  · intro t' hnone
    simp [estimate_gas_cost, hnone]

/-- Witness for C6 at the sample state: chain 97 with
`transfer_gas = 21000` against transaction `gas = 50000`, `gas_price = 1`
and 1:1 oracle prices. -/
theorem C6_witness :
    (mapLookup c0.foreign_chains 97 = some sampleChain ∧
      (50000 + sampleChain.transfer_gas : Nat) < 2 ^ 256 ∧
      ((50000 + sampleChain.transfer_gas) * 1 : Nat) < 2 ^ 256) ∧
    estimate_gas_cost c0 (.ok { chain_id := 97, gas := 50000, gas_price := 1 }) pd0 =
      .ok 71000 :=
  ⟨⟨by decide, by decide, by decide⟩,
   (C6_estimate_gas_cost c0 { chain_id := 97, gas := 50000, gas_price := 1 } pd0 sampleChain
      (by decide) (by decide) (by decide)).2.2.2⟩

/-! ### C2: signer change invalidates the cached key until a refresh lands -/

/-- No operation changes the contract's own account identity. -/
theorem step_current_account_id (c : Contract) (op : Op) :
    (step c op).current_account_id = c.current_account_id := by
  cases op <;>
    simp only [step, set_expire_sequence_after_ns, set_signer_contract_id,
      refresh_signer_public_key, refresh_signer_public_key_callback, set_flags,
      add_to_receiver_whitelist, remove_from_receiver_whitelist, clear_receiver_whitelist,
      add_to_sender_whitelist, remove_from_sender_whitelist, clear_sender_whitelist,
      add_foreign_chain, set_foreign_chain_oracle_asset_id, set_foreign_chain_transfer_gas,
      remove_foreign_chain, add_paymaster, set_paymaster_nonce, remove_paymaster,
      withdraw_collected_fees, Except.map] <;>
    (repeat' split) <;>
    first
      | (simp [orOld]; done)
      | (rename_i heq; repeat' (split at heq);
         all_goals first
           | (simp_all [orOld]; done)
           | (injection heq with h2; subst h2; simp [orOld]))

/-- The only operation that can set the cached signer public key is a
successful `refresh_signer_public_key_callback` invoked by the contract
itself: every other operation preserves an empty cache. -/
theorem step_signer_key_none (c : Contract) (op : Op)
    (h : c.signer_contract_public_key = none)
    (hop : ∀ k, op ≠ Op.opRefreshCallback c.current_account_id (.ok k)) :
    (step c op).signer_contract_public_key = none := by
  cases op
  case opRefreshCallback caller r =>
    by_cases hcaller : caller = c.current_account_id
    · cases r with
      | error e =>
        simp [step, orOld, refresh_signer_public_key_callback, hcaller, h]
      | ok pk =>
        exact absurd (by rw [hcaller]) (hop pk)
    · simp [step, orOld, refresh_signer_public_key_callback, hcaller, h]
  all_goals
    simp only [step, set_expire_sequence_after_ns, set_signer_contract_id,
      refresh_signer_public_key, set_flags,
      add_to_receiver_whitelist, remove_from_receiver_whitelist, clear_receiver_whitelist,
      add_to_sender_whitelist, remove_from_sender_whitelist, clear_sender_whitelist,
      add_foreign_chain, set_foreign_chain_oracle_asset_id, set_foreign_chain_transfer_gas,
      remove_foreign_chain, add_paymaster, set_paymaster_nonce, remove_paymaster,
      withdraw_collected_fees, Except.map]
  all_goals
    repeat' split
  all_goals
    first
      | (simp_all [orOld]; done)
      | (rename_i heq; repeat' (split at heq);
         all_goals first
           | (simp_all [orOld]; done)
           | (injection heq with h2; subst h2; simp_all [orOld]))

/-- Iterated form of `step_signer_key_none`: an empty key cache survives any
sequence of operations that contains no successful self-callback. -/
theorem steps_signer_key_none (c : Contract) (ops : List Op)
    (h : c.signer_contract_public_key = none)
    (hops : ∀ op ∈ ops, ∀ k, op ≠ Op.opRefreshCallback c.current_account_id (.ok k)) :
    (steps c ops).signer_contract_public_key = none := by
  induction ops generalizing c with
  | nil => simpa [steps] using h
  | cons op rest ih =>
    have hstep := step_signer_key_none c op h (hops op (List.mem_cons_self op rest))
    have hrest : ∀ op' ∈ rest, ∀ k,
        op' ≠ Op.opRefreshCallback (step c op).current_account_id (.ok k) := by
      intro op' hmem k
      rw [step_current_account_id]
      exact hops op' (List.mem_cons_of_mem _ hmem) k
    exact ih (step c op) hstep hrest

/-- C2: after `set_signer_contract_id` with an id that differs from the
stored one, the cached signer public key is cleared; it stays cleared
across any sequence of operations that does not include a successful
refresh callback by the contract itself; and while it is cleared,
`get_foreign_address_for` fails for every account id. -/
theorem C2_signer_change_invalidates_key (c : Contract) (caller new_id account : String)
    (ops : List Op) (hc : caller = c.owner) (hne : c.signer_contract_id ≠ new_id)
    (hops : ∀ op ∈ ops, ∀ k, op ≠ Op.opRefreshCallback c.current_account_id (.ok k)) :
    (step c (.opSetSignerContractId caller new_id)).signer_contract_public_key = none ∧
    (steps (step c (.opSetSignerContractId caller new_id)) ops).signer_contract_public_key =
      none ∧
    get_foreign_address_for (steps (step c (.opSetSignerContractId caller new_id)) ops)
      account = none := by
  subst hc
  have h1 : (step c (.opSetSignerContractId c.owner new_id)).signer_contract_public_key =
      none := by
    simp [step, orOld, set_signer_contract_id, hne]
  have hcur := step_current_account_id c (.opSetSignerContractId c.owner new_id)
  have h2 : (steps (step c (.opSetSignerContractId c.owner new_id)) ops).signer_contract_public_key =
      none := by
    apply steps_signer_key_none _ ops h1
    intro op hmem k
    rw [hcur]
    exact hops op hmem k
  refine ⟨h1, h2, ?_⟩
  simp [get_foreign_address_for, h2]

/-- Operations run between the signer change and the refresh callback in
the C2 witness: flag change, a refresh request, a failed callback, a
successful callback by a non-contract caller (rejected as non-private),
and a fee withdrawal. None may repopulate the key cache. -/
def c2ops : List Op :=
  [.opSetFlags "alice" { raw := 1 },
   .opRefreshSignerPublicKey "alice",
   .opRefreshCallback "gas.station" (.error ()),
   .opRefreshCallback "mallory.near" (.ok "stolen"),
   .opWithdrawCollectedFees "alice" 1 "near" none none]

/-- Witness for C2 at the sample state. -/
theorem C2_witness :
    ("alice" = c0.owner ∧ c0.signer_contract_id ≠ "signer.b") ∧
    (steps (step c0 (.opSetSignerContractId "alice" "signer.b"))
        c2ops).signer_contract_public_key = none ∧
    get_foreign_address_for (steps (step c0 (.opSetSignerContractId "alice" "signer.b")) c2ops)
      "bob" = none := by
  have hops : ∀ op ∈ c2ops, ∀ k, op ≠ Op.opRefreshCallback c0.current_account_id (.ok k) := by
    intro op hmem k
    simp only [c2ops, List.mem_cons, List.not_mem_nil, or_false] at hmem
    rcases hmem with rfl | rfl | rfl | rfl | rfl <;> simp [c0]
  have h := C2_signer_change_invalidates_key c0 "alice" "signer.b" "bob" c2ops rfl
    (by decide) hops
  exact ⟨⟨rfl, by decide⟩, h.2.1, h.2.2⟩
